import Mathlib

/-!
Verification development for the ev3dev robot-control library core.

The definitions below are a shallow embedding of the Python source:

* `core.py`: the attribute file cache (`FileCache` / `DeviceFileCache`),
  the device binding scan (`Device.__init__`, `Device._matches`), the typed
  attribute accessors (`get_attr_int` / `set_attr_int`) and the button
  manager event dispatch (`ButtonManagerBase.process`);
* `navigation.py`: the differential pilot motion commands (`drive`,
  `travel`, `rotate`, `arc`, `steer`, `_motors_sync_start`) and the
  asynchronous `MotionMonitor.run` polling loop.

Strings are modelled as `List Char`, Python sets as duplicate-free lists,
machine floats as exact rationals (`ℚ`, with `math.pi` an explicit
parameter of the pilot model), and fallible operations return `Except`.
-/

/- ------------------------------------------------------------------ -/
/- Python decimal integer codec: str(int(v)) and int(s)               -/

/- ------------------------------------------------------------------ -/

/-- Value of a decimal digit character (difference of character codes),
as used when parsing a decimal string. -/

def digitVal (c : Char) : Nat := c.toNat - '0'.toNat

/-- Fuel-based recursion for the decimal digits of a natural number; the
fuel strictly exceeds `n` at every call (dividing by 10 shrinks `n` faster
than the fuel), so the `0` branch is never taken. -/

def digitsOfAux : Nat → Nat → List Char
  | 0, _ => []
  | fuel + 1, n =>
    if n < 10 then [Nat.digitChar n]
    else digitsOfAux fuel (n / 10) ++ [Nat.digitChar (n % 10)]

/-- Decimal digits (most significant first) of a natural number, as produced
by Python's `str()` applied to a non-negative integer. -/

def digitsOf (n : Nat) : List Char := digitsOfAux (n + 1) n

/-- Python `str()` of an integer: optional minus sign followed by the
decimal digits of the absolute value. -/

def pyIntRepr (v : Int) : List Char :=
  if v < 0 then '-' :: digitsOf v.natAbs else digitsOf v.natAbs

/-- The six whitespace characters recognised by Python's `str.strip()`
and by `int()` when parsing a string. -/

def isPySpace (c : Char) : Bool :=
  c == ' ' || c == '\t' || c == '\n' || c == '\r' || c == '\x0b' || c == '\x0c'

/-- Python `str.strip()`: removes leading and trailing whitespace. -/

def pyStrip (l : List Char) : List Char :=
  ((l.dropWhile isPySpace).reverse.dropWhile isPySpace).reverse

/-- Accumulate a run of decimal digits into a natural number; `none` when the
run is empty or holds a non-digit character. -/

def parseDigits (l : List Char) : Option Nat :=
  if l ≠ [] ∧ l.all Char.isDigit then
    some (l.foldl (fun a c => a * 10 + digitVal c) 0)
  else none

/-- Sign handling of Python `int()` on an already-stripped string. -/

def pyParseSigned : List Char → Option Int
  | [] => none
  | c :: rest =>
    if c = '-' then (parseDigits rest).map (fun n => -(n : Int))
    else if c = '+' then (parseDigits rest).map (fun n => (n : Int))
    else (parseDigits (c :: rest)).map (fun n => (n : Int))

/-- Python `int()` applied to a string: strips whitespace, accepts one
optional sign, then requires a non-empty run of decimal digits. -/

def pyParseInt (l : List Char) : Option Int :=
  pyParseSigned (pyStrip l)

/- ------------------------------------------------------------------ -/
/- AttributeStore: FileCache._open_file / read / write (core.py)      -/

/- ------------------------------------------------------------------ -/

/-- The three open modes `FileCache._open_file` can choose from the
permission bits of an attribute file: `a+`, `a` and `r`. -/

inductive OpenMode
  | aPlus
  | append
  | readOnly
deriving DecidableEq

/-- Python exceptions surfaced by the embedded operations. -/

inductive PyErr
  | ioError
  | valueError
  | typeError
  | attributeError
deriving DecidableEq

/-- Mode selection of `FileCache._open_file`: read+append when both
permission bits are set, append-only when only writable, read-only
otherwise. -/

def openModeOf (r_ok w_ok : Bool) : OpenMode :=
  if r_ok && w_ok then .aPlus else if w_ok then .append else .readOnly

/-- One sysfs attribute file, with its permission bits and current value.
Per the filesystem protocol, attribute files are kernel-backed: a `write`
system call hands the buffer to the attribute's store routine, which
replaces the current value (no truncation is needed), and a read from
offset 0 yields the full current value followed by a newline. -/

structure AttrFile where
  r_ok : Bool
  w_ok : Bool
  value : List Char

/-- `FileCache.write`: seeks to the start and writes the string through the
handle opened by `_open_file`; fails with `IOError` on a read-only handle,
otherwise the kernel store replaces the attribute value. -/

def AttrFile.fcWrite (f : AttrFile) (s : List Char) : Except PyErr AttrFile :=
  match openModeOf f.r_ok f.w_ok with
  | .readOnly => .error .ioError
  | _ => .ok { f with value := s }

/-- `FileCache.read`: seeks to the start, reads the entire contents (the
value plus the kernel's trailing newline) and strips whitespace; fails with
`IOError` on an append-only (write-only) handle. -/

def AttrFile.fcRead (f : AttrFile) : Except PyErr (List Char) :=
  match openModeOf f.r_ok f.w_ok with
  | .append => .error .ioError
  | _ => .ok (pyStrip (f.value ++ ['\n']))

/-- `Device.set_attr_int`: writes `str(int(value))`. -/

def AttrFile.set_attr_int (f : AttrFile) (v : Int) : Except PyErr AttrFile :=
  f.fcWrite (pyIntRepr v)

/-- `Device.get_attr_int`: reads the attribute and applies `int()`;
a non-integer content raises `ValueError`. -/

def AttrFile.get_attr_int (f : AttrFile) : Except PyErr Int :=
  f.fcRead.bind fun s =>
    match pyParseInt s with
    | some v => .ok v
    | none => .error .valueError

/- ------------------------------------------------------------------ -/
/- DeviceBinding: fnmatch glob, Device.__init__ scan, Device._matches -/

/- ------------------------------------------------------------------ -/

/-- Membership of a character in a regex character class, as produced by
`fnmatch.translate`: `a-b` (with `-` neither first nor last) is a code-point
range, every other character is a literal. -/

def classHas : List Char → Char → Bool
  | [], _ => false
  | a :: '-' :: b :: rest, c =>
    (a.toNat ≤ c.toNat && c.toNat ≤ b.toNat) || classHas rest c
  | a :: rest, c => (a == c) || classHas rest c

/-- Scan forward for the closing `]` of a bracket expression, returning the
class content and the remaining pattern. -/

def scanClose : List Char → Option (List Char × List Char)
  | [] => none
  | c :: t =>
    if c = ']' then some ([], t)
    else (scanClose t).map fun p => (c :: p.1, p.2)

/-- After the optional leading `!`, `fnmatch.translate` lets a first `]` be
literal class content and then scans for the closing `]`. -/

def splitClassBody : List Char → Option (List Char × List Char)
  | [] => none
  | c :: t =>
    if c = ']' then (scanClose t).map fun p => (']' :: p.1, p.2)
    else scanClose (c :: t)

/-- Decompose the remainder of the pattern after a `[` into the negation
flag, the class content and the pattern after the closing `]`; `none` when
there is no closing `]` (the `[` is then a literal, as in
`fnmatch.translate`). -/

def splitClass : List Char → Option (Bool × List Char × List Char)
  | [] => none
  | c :: t =>
    if c = '!' then (splitClassBody t).map fun p => (true, p.1, p.2)
    else (splitClassBody (c :: t)).map fun p => (false, p.1, p.2)

/-- Fuel-based matcher body; each recursive call strictly decreases
`p.length + s.length` (for the class case this is `splitClass_rest_length`),
so with fuel above that sum the `0` branch is never taken. -/

def globMatchAux : Nat → List Char → List Char → Bool
  | 0, _, _ => false
  | fuel + 1, p, s =>
    match p with
    | [] => s.isEmpty
    | '*' :: ps =>
      globMatchAux fuel ps s ||
        (match s with
         | [] => false
         | _ :: t => globMatchAux fuel ('*' :: ps) t)
    | '?' :: ps =>
      (match s with
       | [] => false
       | _ :: t => globMatchAux fuel ps t)
    | '[' :: pr =>
      (match splitClass pr with
       | none =>
         match s with
         | c :: t => (c == '[') && globMatchAux fuel pr t
         | [] => false
       | some (neg, content, rest) =>
         match s with
         | c :: t => (neg != classHas content c) && globMatchAux fuel rest t
         | [] => false)
    | q :: ps =>
      (match s with
       | c :: t => (q == c) && globMatchAux fuel ps t
       | [] => false)

/-- `fnmatch.fnmatch(s, pattern)` on a case-sensitive platform: `*` matches
any run of characters (the translated regex uses DOTALL mode, so newlines
included), `?` any single character, `[...]`/`[!...]` a character class,
anything else a literal; the whole name must be consumed. -/

def globMatch (p s : List Char) : Bool :=
  globMatchAux (p.length + s.length + 1) p s

/-- One entry of a device class directory: the instance directory name and
the value of each of its attribute files. The valuation is total: every
criterion attribute is assumed present and readable for every candidate
(the source raises an uncaught exception otherwise). -/

structure DirEntry where
  name : List Char
  attr : List Char → List Char

/-- A criterion value from the `kwargs` of `Device.__init__`: a single
accepted value, or several (a Python list/tuple/set). -/

inductive CritVal
  | single (s : List Char)
  | multi (l : List (List Char))

/-- Whether `needle` occurs at the start of `hay`. -/

def headMatches : List Char → List Char → Bool
  | _, [] => true
  | [], _ :: _ => false
  | c :: t, d :: u => (c == d) && headMatches t u

/-- Python `hay.find(needle) >= 0`: substring containment (an empty needle
always occurs). -/

def hasSub : List Char → List Char → Bool
  | [], needle => needle.isEmpty
  | c :: t, needle => headMatches (c :: t) needle || hasSub t needle

/-- `Device._matches`: the candidate attribute value must contain the
criterion string as a substring; for a list-valued criterion a match with
any one entry is enough. -/

def matchesCrit (attrOf : List Char → List Char) :
    List Char × CritVal → Bool
  | (a, .single p) => hasSub (attrOf a) p
  | (a, .multi ps) => ps.any fun p => hasSub (attrOf a) p

/-- The scan loop of `Device.__init__`: walk the class directory in listing
order, keep the first entry whose name glob-matches and whose attributes
satisfy every criterion. -/

def bindScan (pat : List Char) (criteria : List (List Char × CritVal)) :
    List DirEntry → Option DirEntry
  | [] => none
  | e :: rest =>
    if globMatch pat e.name then
      if criteria.all (fun kc => matchesCrit e.attr kc) then some e
      else bindScan pat criteria rest
    else bindScan pat criteria rest

/-- `Device._DEVICE_INDEX` applied to the matched entry name: the regex
`^.*(?P<idx>\d+)$` with Python's leftmost-greedy semantics. The greedy `.*`
takes the longest prefix that still lets the anchored `\d+` succeed, so the
splits are tried from the longest prefix down and the first whose remainder
is a non-empty run of digits wins; `int()` of the captured group is the
index. -/

def deviceIndexOf (name : List Char) : Option Nat :=
  (List.range name.length).reverse.findSome? fun k => parseDigits (name.drop k)

/-- The observable state `Device.__init__` leaves behind: the `connected`
flag and the parsed `device_index` (`none` both when the regex does not
match and when the device is unbound, where the source leaves the field
unset and reading it raises). -/

structure DeviceState where
  connected : Bool
  device_index : Option Nat
deriving DecidableEq

/-- `Device.__init__`: scan-and-match over the listed entries, then parse
the trailing index of the matched name. -/

def deviceInit (pat : List Char) (criteria : List (List Char × CritVal))
    (entries : List DirEntry) : DeviceState :=
  match bindScan pat criteria entries with
  | some e => { connected := true, device_index := deviceIndexOf e.name }
  | none => { connected := false, device_index := none }

/- ------------------------------------------------------------------ -/
/- EventScanner: ButtonManagerBase.process (core.py)                  -/

/- ------------------------------------------------------------------ -/

/-- Python `in` on a set of button names (modelled as a list). -/

def pyIn (b : String) (s : List String) : Bool := decide (b ∈ s)

/-- `new_state.symmetric_difference(old_state)` on Python sets modelled as
duplicate-free lists; the set iteration order is modelled as the elements
only in `new` followed by the elements only in `old`. -/

def symmDiffL (new old : List String) : List String :=
  new.filter (fun b => !(pyIn b old)) ++ old.filter (fun b => !(pyIn b new))

/-- Outcome of invoking one per-button handler: normal return, an
`AttributeError` raised by the handler body, or any other exception. -/

inductive HandlerOutcome
  | ok
  | attrError
  | otherError
deriving DecidableEq

/-- Result of `getattr(self, 'on_' + button)`: `none` models the
`AttributeError` of a missing handler slot; a present handler receives the
new pressed flag and yields an outcome. -/

def HandlerTable : Type := String → Option (Bool → HandlerOutcome)

/-- The per-button dispatch loop of `process()`: for each button of the
diff, look up the handler (a missing one is a no-op via the caught
`AttributeError`) and invoke it with the new pressed flag; an
`AttributeError` raised by the handler body is caught by the same
`except` clause and the loop continues; any other exception escapes and
aborts the loop. Returns the invocations made and the escape flag. -/

def runHandlers (handlers : HandlerTable) (pressed : List String) :
    List String → List (String × Bool) × Bool
  | [] => ([], false)
  | b :: rest =>
    match handlers b with
    | none => runHandlers handlers pressed rest
    | some h =>
      match h (pyIn b pressed) with
      | .otherError => ([(b, pyIn b pressed)], true)
      | .ok =>
        let r := runHandlers handlers pressed rest
        ((b, pyIn b pressed) :: r.1, r.2)
      | .attrError =>
        let r := runHandlers handlers pressed rest
        ((b, pyIn b pressed) :: r.1, r.2)

/-- What one `process()` call did: the state stored into `self._state`
(written before the dispatch loop), the handler invocations in order, the
list passed to the aggregate `on_change` handler when it was invoked, and
whether an exception other than `AttributeError` escaped. -/

structure ProcessResult where
  newState : List String
  calls : List (String × Bool)
  changeCall : Option (List (String × Bool))
  escaped : Bool
deriving DecidableEq

/-- `ButtonManagerBase.process()`: read the new pressed set, store it,
diff it against the previous state, dispatch the per-button handlers, then
invoke `on_change` with the `(button, new flag)` pairs iff the diff is
non-empty (and `on_change` is set, which it is by default). -/

def process (handlers : HandlerTable) (hasOnChange : Bool)
    (old pressed : List String) : ProcessResult :=
  { newState := pressed
    calls := (runHandlers handlers pressed (symmDiffL pressed old)).1
    escaped := (runHandlers handlers pressed (symmDiffL pressed old)).2
    changeCall :=
      if (runHandlers handlers pressed (symmDiffL pressed old)).2 then none
      else if (symmDiffL pressed old).isEmpty = false ∧ hasOnChange = true then
        some ((symmDiffL pressed old).map fun b => (b, pyIn b pressed))
      else none }

/-- `getattr` lookup with the handler of one button removed, used to state
that a handler raising `AttributeError` is indistinguishable from an
absent one. -/

def dropHandler (handlers : HandlerTable) (b : String) : HandlerTable :=
  fun x => if x = b then none else handlers x

/- ------------------------------------------------------------------ -/
/- MotionController: DifferentialPilot (navigation.py)                -/

/- ------------------------------------------------------------------ -/

/-- Python 2 `round()`: to the nearest integer, halves away from zero.
`set_attr_int` then writes the already-integral value unchanged. -/

def pyRound (x : ℚ) : Int :=
  if 0 ≤ x then ⌊x + 1 / 2⌋ else -⌊-x + 1 / 2⌋

/-- Python `int()` applied to a float, as performed by `set_attr_int` on a
value that was not rounded first: truncation toward zero. -/

def pyTrunc (x : ℚ) : Int :=
  if 0 ≤ x then ⌊x⌋ else ⌈x⌉

/-- The two motors of the pilot, in the order of
`self._motors = (left_motor, right_motor)`. -/

inductive Side
  | left
  | right
deriving DecidableEq

/-- One attribute write issued to a motor. `setStr` records a
`set_attr_string` write; `setInt` records a `set_attr_int` write with the
integer that `str(int(value))` produces. -/

inductive Act
  | setStr (m : Side) (attr : String) (v : String)
  | setInt (m : Side) (attr : String) (v : Int)
deriving DecidableEq

/-- The state of a `DifferentialPilot`: its geometry, the float constant
`math.pi` as an explicit rational parameter, and the current default
travel and rotate speeds. -/

structure Pilot where
  wheel_diam : ℚ
  track_width : ℚ
  count_per_rot : ℚ
  pi : ℚ
  travel_speed : ℚ
  rotate_speed : ℚ

/-- `self._dist_per_pulse = wheel_diameter * math.pi / count_per_rot`. -/

def Pilot.dist_per_pulse (p : Pilot) : ℚ :=
  p.wheel_diam * p.pi / p.count_per_rot

/-- `self._rotation_per_pulse = math.degrees(dist_per_pulse / track_width * 2)`. -/

def Pilot.rotation_per_pulse (p : Pilot) : ℚ :=
  (p.dist_per_pulse / p.track_width * 2) * 180 / p.pi

/-- `DifferentialPilot._pulses_per_sec_linear`: `round(speed / dist_per_pulse)`. -/

def Pilot.pulses_per_sec_linear (p : Pilot) (speed : ℚ) : Int :=
  pyRound (speed / p.dist_per_pulse)

/-- `DifferentialPilot._pulses_per_sec_angular`: `round(speed / rotation_per_pulse)`. -/

def Pilot.pulses_per_sec_angular (p : Pilot) (speed : ℚ) : Int :=
  pyRound (speed / p.rotation_per_pulse)

/-- Python's `speed or self._travel_speed` idiom: an omitted (`None`) or
zero speed falls back to the stored default. -/

def orDefault (speed : Option ℚ) (dflt : ℚ) : ℚ :=
  match speed with
  | none => dflt
  | some s => if s = 0 then dflt else s

/-- Whether the pilot command returned a live started `MotionMonitor`
thread or the degenerate `NullMotionMonitor`. -/

inductive MonitorKind
  | real
  | null
deriving DecidableEq

/-- `NullMotionMonitor.running`: always `False`. The class is defined in
the source but no pilot code path ever instantiates it. -/

def nullMonitorRunning : Bool := false

/-- `NullMotionMonitor.stalled`: always `False`. -/

def nullMonitorStalled : Bool := false

/-- `DifferentialPilot._motors_sync_start(command)`: writes the run command
to every motor in one pass, after all setpoints are committed. -/

def motors_sync_start (command : String) : List Act :=
  [Act.setStr Side.left ("command") command,
   Act.setStr Side.right ("command") command]

/-- `DifferentialPilot.drive(speed)`: writes the speed-regulation flag and
the speed setpoint `round(speed / dist_per_pulse)` to both motors, then
calls `self._motors_sync_start()` with no argument; `_motors_sync_start`
requires its `command` parameter, so Python raises `TypeError` at the call
site and no run command is ever written. -/

def Pilot.drive (p : Pilot) (speed : Option ℚ) :
    List Act × Except PyErr Unit :=
  ([Act.setStr Side.left ("speed_regulation") ("on"),
    Act.setInt Side.left ("speed_sp")
      (p.pulses_per_sec_linear (orDefault speed p.travel_speed)),
    Act.setStr Side.right ("speed_regulation") ("on"),
    Act.setInt Side.right ("speed_sp")
      (p.pulses_per_sec_linear (orDefault speed p.travel_speed))],
   .error .typeError)

/-- `DifferentialPilot.travel(distance, speed)`: per motor, the relative
position target `round(distance / dist_per_pulse)`, speed regulation on,
and the speed setpoint; then the synchronized `run-to-rel-pos` start; a
`MotionMonitor` is then created and started unconditionally. -/

def Pilot.travel (p : Pilot) (distance : ℚ) (speed : Option ℚ) :
    List Act × MonitorKind :=
  ([Act.setInt Side.left ("position_sp")
      (pyRound (distance / p.dist_per_pulse)),
    Act.setStr Side.left ("speed_regulation") ("on"),
    Act.setInt Side.left ("speed_sp")
      (p.pulses_per_sec_linear (orDefault speed p.travel_speed)),
    Act.setInt Side.right ("position_sp")
      (pyRound (distance / p.dist_per_pulse)),
    Act.setStr Side.right ("speed_regulation") ("on"),
    Act.setInt Side.right ("speed_sp")
      (p.pulses_per_sec_linear (orDefault speed p.travel_speed))] ++
      motors_sync_start ("run-to-rel-pos"),
   .real)

/-- `DifferentialPilot.rotate(angle, speed)`: speed setpoints on both
motors, opposite-signed position targets `-pulses` / `+pulses` with
`pulses = round(angle / rotation_per_pulse)`, synchronized
`run-to-rel-pos` start, and a started `MotionMonitor`. -/

def Pilot.rotate (p : Pilot) (angle : ℚ) (speed : Option ℚ) :
    List Act × MonitorKind :=
  ([Act.setStr Side.left ("speed_regulation") ("on"),
    Act.setInt Side.left ("speed_sp")
      (p.pulses_per_sec_angular (orDefault speed p.rotate_speed)),
    Act.setStr Side.right ("speed_regulation") ("on"),
    Act.setInt Side.right ("speed_sp")
      (p.pulses_per_sec_angular (orDefault speed p.rotate_speed)),
    Act.setInt Side.left ("position_sp")
      (-(pyRound (angle / p.rotation_per_pulse))),
    Act.setInt Side.right ("position_sp")
      (pyRound (angle / p.rotation_per_pulse))] ++
      motors_sync_start ("run-to-rel-pos"),
   .real)

/-- `DifferentialPilot.rotate_forever(speed)`: opposite-signed continuous
speed setpoints and a synchronized `run-forever` start. -/

def Pilot.rotate_forever (p : Pilot) (speed : ℚ) : List Act :=
  [Act.setStr Side.left ("speed_regulation") ("on"),
   Act.setInt Side.left ("speed_sp")
     (-(p.pulses_per_sec_angular speed)),
   Act.setStr Side.right ("speed_regulation") ("on"),
   Act.setInt Side.right ("speed_sp")
     (p.pulses_per_sec_angular speed)] ++
    motors_sync_start ("run-forever")

/-- `DifferentialPilot.arc(radius, angle, speed)`: a zero radius delegates
to `rotate` (without forwarding the speed, so the stored rotate speed is
used); otherwise each motor's speed is biased by `1 ± (track_width/2)/radius`
and its distance is `(radius ± track_width/2) * radians(angle)`; the speed
setpoint is rounded by `_pulses_per_sec_linear`, but the position setpoint
is written as `d / dist_per_pulse` with no rounding, so `set_attr_int`
truncates it toward zero. -/

def Pilot.arc (p : Pilot) (radius angle : ℚ) (speed : Option ℚ) :
    List Act × MonitorKind :=
  if radius = 0 then p.rotate angle none
  else
    ([Act.setStr Side.left ("speed_regulation") ("on"),
      Act.setInt Side.left ("speed_sp")
        (p.pulses_per_sec_linear
          (|orDefault speed p.travel_speed| *
            (1 + (-1) * (p.track_width / 2 / radius)))),
      Act.setInt Side.left ("position_sp")
        (pyTrunc ((radius + (-1) * (p.track_width / 2)) *
          (angle * p.pi / 180) / p.dist_per_pulse)),
      Act.setStr Side.right ("speed_regulation") ("on"),
      Act.setInt Side.right ("speed_sp")
        (p.pulses_per_sec_linear
          (|orDefault speed p.travel_speed| *
            (1 + 1 * (p.track_width / 2 / radius)))),
      Act.setInt Side.right ("position_sp")
        (pyTrunc ((radius + 1 * (p.track_width / 2)) *
          (angle * p.pi / 180) / p.dist_per_pulse))] ++
      motors_sync_start ("run-to-rel-pos"),
     .real)

/-- `DifferentialPilot.steer(turn_rate, speed)`: a falsy (zero) turn rate
delegates to `drive` (which raises); otherwise the turn rate is clamped to
`[-200, 200]`; at `|turn_rate| = 200` the command degenerates to
`rotate_forever`; otherwise `ratio = float(100 - abs(turn_rate))` and the
wheel speeds are `(speed * ratio, speed)` for a left turn and
`(speed, speed * ratio)` for a right turn, followed by a synchronized
`run-forever` start. -/

def Pilot.steer (p : Pilot) (turn_rate : ℚ) (speed : ℚ) :
    List Act × Except PyErr Unit :=
  if turn_rate = 0 then p.drive (some speed)
  else
    if |min (max turn_rate (-200)) 200| = 200 then
      (p.rotate_forever speed, .ok ())
    else
      ([Act.setStr Side.left ("speed_regulation") ("on"),
        Act.setInt Side.left ("speed_sp")
          (p.pulses_per_sec_linear
            (if min (max turn_rate (-200)) 200 > 0 then
              speed * (100 - |min (max turn_rate (-200)) 200|)
            else speed)),
        Act.setStr Side.right ("speed_regulation") ("on"),
        Act.setInt Side.right ("speed_sp")
          (p.pulses_per_sec_linear
            (if min (max turn_rate (-200)) 200 > 0 then speed
            else speed * (100 - |min (max turn_rate (-200)) 200|)))] ++
        motors_sync_start ("run-forever"),
       .ok ())

/-- The concrete pilot of the spec's reference scenario: wheel diameter
43.2, track width 140, 360 counts per revolution; `math.pi` stands in as a
rational (the arc position setpoints are independent of its value, since
`pi` cancels exactly); default speeds 100 and 90. -/

def refPilot : Pilot :=
  { wheel_diam := 216 / 5
    track_width := 140
    count_per_rot := 360
    pi := 355 / 113
    travel_speed := 100
    rotate_speed := 90 }

/- ------------------------------------------------------------------ -/
/- MotionMonitor.run polling loop (navigation.py)                     -/

/- ------------------------------------------------------------------ -/

/-- One motor's polled `(state, position)` pair: the list of state flags
read from the `state` attribute and the current encoder position. -/

structure MotorPoll where
  st : List String
  pos : Int
deriving DecidableEq

/-- Python `'holding' in s` on the list of state flags. -/

def holdingIn (st : List String) : Bool := decide ("holding" ∈ st)

/-- Terminal situation of the monitor loop on a finite polling trace:
completed (all motors holding), stalled, or the trace ran out with the
loop still running. -/

inductive MonOutcome
  | completed
  | stalled
  | exhausted
deriving DecidableEq

/-- The body of `MotionMonitor.run` over a finite polling trace, with the
previous-poll position snapshot threaded through (`None` before the first
poll, so the stall check cannot fire there). Returns the outcome and the
number of invocations of `on_complete` and `on_stalled`. -/

def monitorLoop (hasOnComplete hasOnStalled : Bool) :
    Option (Int × Int) → List (MotorPoll × MotorPoll) →
      MonOutcome × Nat × Nat
  | _, [] => (.exhausted, 0, 0)
  | prev, q :: rest =>
    if holdingIn q.1.st && holdingIn q.2.st then
      (.completed, (if hasOnComplete then 1 else 0), 0)
    else
      match prev with
      | some pq =>
        if (pq.1 == q.1.pos && !(holdingIn q.1.st)) ||
            (pq.2 == q.2.pos && !(holdingIn q.2.st)) then
          (.stalled, 0, (if hasOnStalled then 1 else 0))
        else
          monitorLoop hasOnComplete hasOnStalled (some (q.1.pos, q.2.pos)) rest
      | none =>
        monitorLoop hasOnComplete hasOnStalled (some (q.1.pos, q.2.pos)) rest

/-- Summary of one `MotionMonitor.run` execution. -/

structure MonitorRun where
  outcome : MonOutcome
  startCalls : Nat
  completeCalls : Nat
  stalledCalls : Nat
deriving DecidableEq

/-- `MotionMonitor.run`: fires `on_start` once (when supplied), then polls
`(state, position)` for both motors until completion or stall. -/

def monitorRun (hasOnStart hasOnComplete hasOnStalled : Bool)
    (polls : List (MotorPoll × MotorPoll)) : MonitorRun :=
  { outcome := (monitorLoop hasOnComplete hasOnStalled none polls).1
    startCalls := if hasOnStart then 1 else 0
    completeCalls := (monitorLoop hasOnComplete hasOnStalled none polls).2.1
    stalledCalls := (monitorLoop hasOnComplete hasOnStalled none polls).2.2 }

/- ------------------------------------------------------------------ -/
/- Theorems                                                           -/
/- ------------------------------------------------------------------ -/

theorem digitsOfAux_fuel : ∀ f₁ f₂ n, n < f₁ → n < f₂ →
    digitsOfAux f₁ n = digitsOfAux f₂ n := by
  intro f₁
  induction f₁ with
  | zero => intro f₂ n h₁ _; exact absurd h₁ (by omega)
  | succ f₁ ih =>
    intro f₂ n h₁ h₂
    cases f₂ with
    | zero => exact absurd h₂ (by omega)
    | succ g =>
      rw [digitsOfAux, digitsOfAux]
      by_cases hn : n < 10
      · rw [if_pos hn, if_pos hn]
      · rw [if_neg hn, if_neg hn,
          ih g (n / 10) (by omega) (by
            have := Nat.div_lt_self (show 0 < n by omega) (show 1 < 10 by omega)
            omega)]

/-- The recursion equation of `digitsOf`, matching the repeated
divide-by-ten loop of the decimal printer. -/

theorem digitsOf_eq (n : Nat) : digitsOf n =
    if n < 10 then [Nat.digitChar n]
    else digitsOf (n / 10) ++ [Nat.digitChar (n % 10)] := by
  show digitsOfAux (n + 1) n = _
  rw [digitsOfAux]
  by_cases hn : n < 10
  · rw [if_pos hn, if_pos hn]
  · rw [if_neg hn, if_neg hn]
    have hlt : n / 10 < n :=
      Nat.div_lt_self (by omega) (by omega)
    rw [digitsOfAux_fuel n (n / 10 + 1) (n / 10) (by omega) (by omega)]
    rfl

theorem digitChar_isDigit : ∀ d, d < 10 → (Nat.digitChar d).isDigit = true := by
  decide

theorem digitVal_digitChar : ∀ d, d < 10 → digitVal (Nat.digitChar d) = d := by
  decide

theorem digitsOf_ne_nil (n : Nat) : digitsOf n ≠ [] := by
  rw [digitsOf_eq]
  split
  · simp
  · simp

theorem digitsOf_all_digit (n : Nat) : ∀ c ∈ digitsOf n, c.isDigit = true := by
  induction n using Nat.strong_induction_on with
  | _ n ih =>
    rw [digitsOf_eq]
    split
    · rename_i hn
      intro c hc
      simp only [List.mem_singleton] at hc
      subst hc
      exact digitChar_isDigit n hn
    · rename_i hn
      intro c hc
      simp only [List.mem_append, List.mem_singleton] at hc
      rcases hc with hc | hc
      · exact ih (n / 10) (Nat.div_lt_self (by omega) (by omega)) c hc
      · subst hc
        exact digitChar_isDigit (n % 10) (Nat.mod_lt _ (by omega))

theorem isDigit_not_pySpace {c : Char} (h : c.isDigit = true) :
    isPySpace c = false := by
  by_contra hc
  rw [Bool.not_eq_false] at hc
  unfold isPySpace at hc
  simp only [Bool.or_eq_true, beq_iff_eq] at hc
  rcases hc with ((((rfl | rfl) | rfl) | rfl) | rfl) | rfl <;>
    exact absurd h (by decide)

theorem foldl_digitsOf (n : Nat) : ∀ a : Nat,
    (digitsOf n).foldl (fun a c => a * 10 + digitVal c) a =
      a * 10 ^ (digitsOf n).length + n := by
  induction n using Nat.strong_induction_on with
  | _ n ih =>
    intro a
    rw [digitsOf_eq]
    split
    · rename_i hn
      simp only [List.foldl_cons, List.foldl_nil, List.length_singleton, pow_one]
      rw [digitVal_digitChar n hn]
    · rename_i hn
      rw [List.foldl_append, ih (n / 10) (Nat.div_lt_self (by omega) (by omega)) a]
      simp only [List.foldl_cons, List.foldl_nil, List.length_append,
        List.length_singleton]
      rw [digitVal_digitChar (n % 10) (Nat.mod_lt _ (by omega)), pow_succ]
      have h1 : (a * (10 ^ (digitsOf (n / 10)).length * 10)) =
          a * 10 ^ (digitsOf (n / 10)).length * 10 := by ring
      rw [h1]
      omega

theorem parseDigits_digitsOf (n : Nat) : parseDigits (digitsOf n) = some n := by
  rw [parseDigits, if_pos]
  · rw [foldl_digitsOf n 0]
    simp
  · exact ⟨digitsOf_ne_nil n,
      List.all_eq_true.mpr fun c hc => digitsOf_all_digit n c hc⟩

theorem pyStrip_append_newline (l : List Char) (hne : l ≠ [])
    (hns : ∀ c ∈ l, isPySpace c = false) : pyStrip (l ++ ['\n']) = l := by
  unfold pyStrip
  obtain ⟨c, rest, rfl⟩ : ∃ c rest, l = c :: rest := by
    cases l with
    | nil => exact absurd rfl hne
    | cons c rest => exact ⟨c, rest, rfl⟩
  rw [List.cons_append, List.dropWhile_cons,
    hns c (List.mem_cons_self c rest)]
  simp only [Bool.false_eq_true, if_false]
  have h2 : (c :: (rest ++ ['\n'])).reverse = '\n' :: (c :: rest).reverse := by
    simp
  rw [h2, List.dropWhile_cons]
  have hn : isPySpace '\n' = true := by decide
  rw [hn]
  simp only [if_true]
  cases hrev : ((c :: rest).reverse) with
  | nil => exact absurd hrev (by simp)
  | cons d ds =>
    have hd : d ∈ c :: rest := by
      have : d ∈ (c :: rest).reverse := by
        rw [hrev]; exact List.mem_cons_self d ds
      exact List.mem_reverse.mp this
    rw [List.dropWhile_cons, hns d hd]
    simp only [Bool.false_eq_true, if_false]
    rw [← hrev, List.reverse_reverse]

theorem pyIntRepr_ne_nil (v : Int) : pyIntRepr v ≠ [] := by
  rw [pyIntRepr]
  split
  · simp
  · exact digitsOf_ne_nil _

theorem pyIntRepr_no_space (v : Int) :
    ∀ c ∈ pyIntRepr v, isPySpace c = false := by
  intro c hc
  rw [pyIntRepr] at hc
  by_cases hv : v < 0
  · rw [if_pos hv] at hc
    rcases List.mem_cons.mp hc with rfl | hc
    · decide
    · exact isDigit_not_pySpace (digitsOf_all_digit _ c hc)
  · rw [if_neg hv] at hc
    exact isDigit_not_pySpace (digitsOf_all_digit _ c hc)

theorem pyStrip_eq_self (l : List Char)
    (hns : ∀ c ∈ l, isPySpace c = false) : pyStrip l = l := by
  unfold pyStrip
  have hdrop : l.dropWhile isPySpace = l := by
    cases l with
    | nil => rfl
    | cons c rest =>
      rw [List.dropWhile_cons, hns c (List.mem_cons_self c rest)]
      simp
  rw [hdrop]
  cases hrev : l.reverse with
  | nil => simp [List.reverse_eq_nil_iff.mp hrev]
  | cons d ds =>
    have hd : d ∈ l := List.mem_reverse.mp (by
      rw [hrev]; exact List.mem_cons_self d ds)
    rw [List.dropWhile_cons, hns d hd]
    simp only [Bool.false_eq_true, if_false]
    rw [← hrev, List.reverse_reverse]

theorem pyParseSigned_pyIntRepr (v : Int) :
    pyParseSigned (pyIntRepr v) = some v := by
  by_cases hv : v < 0
  · have hrepr : pyIntRepr v = '-' :: digitsOf v.natAbs := by
      rw [pyIntRepr, if_pos hv]
    rw [hrepr, pyParseSigned, if_pos rfl, parseDigits_digitsOf]
    show some (-(v.natAbs : Int)) = some v
    congr 1
    omega
  · have hrepr : pyIntRepr v = digitsOf v.natAbs := by
      rw [pyIntRepr, if_neg hv]
    rw [hrepr]
    cases hds : digitsOf v.natAbs with
    | nil => exact absurd hds (digitsOf_ne_nil _)
    | cons c rest =>
      have hc : c.isDigit = true := by
        have : c ∈ digitsOf v.natAbs := by
          rw [hds]; exact List.mem_cons_self c rest
        exact digitsOf_all_digit _ c this
      have hcm : c ≠ '-' := by
        rintro rfl
        exact absurd hc (by decide)
      have hcp : c ≠ '+' := by
        rintro rfl
        exact absurd hc (by decide)
      rw [pyParseSigned, if_neg hcm, if_neg hcp, ← hds, parseDigits_digitsOf]
      show some ((v.natAbs : Int)) = some v
      congr 1
      omega

/-- Round trip of the Python decimal codec: `int(str(v)) == v`. -/

theorem pyParseInt_pyIntRepr (v : Int) :
    pyParseInt (pyIntRepr v) = some v := by
  unfold pyParseInt
  rw [pyStrip_eq_self _ (pyIntRepr_no_space v)]
  exact pyParseSigned_pyIntRepr v

/-- Claim C5: for every integer `v` and every attribute file readable and
writable through the cache's permission-derived open mode, `write_int(v)`
followed by `read_int()` on the same attribute returns `v`: the write seeks
to the start and writes the decimal string without truncating, the read
seeks to the start, reads the whole contents and strips whitespace. -/

theorem claim_C5_attr_int_round_trip (f : AttrFile) (v : Int)
    (hr : f.r_ok = true) (hw : f.w_ok = true) :
    (f.set_attr_int v).bind AttrFile.get_attr_int = .ok v := by
  have hmode : openModeOf f.r_ok f.w_ok = .aPlus := by
    rw [hr, hw]; rfl
  rw [AttrFile.set_attr_int, AttrFile.fcWrite, hmode]
  show ({ f with value := pyIntRepr v } : AttrFile).get_attr_int = .ok v
  rw [AttrFile.get_attr_int, AttrFile.fcRead]
  simp only [hmode]
  show (Except.ok (pyStrip (pyIntRepr v ++ ['\n'])) : Except PyErr _).bind _ = _
  have hstrip : pyStrip (pyIntRepr v ++ ['\n']) = pyIntRepr v :=
    pyStrip_append_newline _ (pyIntRepr_ne_nil v) (pyIntRepr_no_space v)
  rw [hstrip]
  show (match pyParseInt (pyIntRepr v) with
    | some w => (Except.ok w : Except PyErr Int)
    | none => .error .valueError) = .ok v
  rw [pyParseInt_pyIntRepr]

theorem scanClose_rest_length :
    ∀ (l content rest : List Char), scanClose l = some (content, rest) →
      rest.length < l.length := by
  intro l
  induction l with
  | nil => intro content rest h; exact absurd h (by simp [scanClose])
  | cons c t ih =>
    intro content rest h
    rw [scanClose] at h
    by_cases hc : c = ']'
    · rw [if_pos hc] at h
      obtain ⟨-, rfl⟩ : ([] : List Char) = content ∧ t = rest := by
        constructor <;> (cases h; rfl)
      simp
    · rw [if_neg hc] at h
      cases hs : scanClose t with
      | none => rw [hs] at h; exact absurd h (by simp)
      | some p =>
        rw [hs] at h
        simp only [Option.map_some'] at h
        have hr : p.2 = rest := congrArg Prod.snd (Option.some.inj h)
        calc rest.length = p.2.length := by rw [hr]
        _ < t.length := ih p.1 p.2 (by rw [hs])
        _ < (c :: t).length := by simp

theorem splitClassBody_rest_length (l content rest : List Char)
    (h : splitClassBody l = some (content, rest)) : rest.length < l.length := by
  cases l with
  | nil => exact absurd h (by simp [splitClassBody])
  | cons c t =>
    rw [splitClassBody] at h
    by_cases hc : c = ']'
    · rw [if_pos hc] at h
      cases hs : scanClose t with
      | none => rw [hs] at h; exact absurd h (by simp)
      | some p =>
        rw [hs] at h
        simp only [Option.map_some'] at h
        have hr : p.2 = rest := congrArg Prod.snd (Option.some.inj h)
        calc rest.length = p.2.length := by rw [hr]
        _ < t.length := scanClose_rest_length t p.1 p.2 (by rw [hs])
        _ < (c :: t).length := by simp
    · rw [if_neg hc] at h
      exact scanClose_rest_length _ _ _ h

theorem splitClass_rest_length (l : List Char) (neg : Bool)
    (content rest : List Char)
    (h : splitClass l = some (neg, content, rest)) : rest.length < l.length := by
  cases l with
  | nil => exact absurd h (by simp [splitClass])
  | cons c t =>
    rw [splitClass] at h
    by_cases hc : c = '!'
    · rw [if_pos hc] at h
      cases hs : splitClassBody t with
      | none => rw [hs] at h; exact absurd h (by simp)
      | some p =>
        rw [hs] at h
        simp only [Option.map_some'] at h
        have hr : p.2 = rest := congrArg Prod.snd
          (congrArg Prod.snd (Option.some.inj h))
        calc rest.length = p.2.length := by rw [hr]
        _ < t.length := splitClassBody_rest_length t p.1 p.2 (by rw [hs])
        _ < (c :: t).length := by simp
    · rw [if_neg hc] at h
      cases hs : splitClassBody (c :: t) with
      | none => rw [hs] at h; exact absurd h (by simp)
      | some p =>
        rw [hs] at h
        simp only [Option.map_some'] at h
        have hr : p.2 = rest := congrArg Prod.snd
          (congrArg Prod.snd (Option.some.inj h))
        exact hr ▸ splitClassBody_rest_length _ p.1 p.2 (by rw [hs])

theorem bindScan_eq_find (pat : List Char)
    (criteria : List (List Char × CritVal)) (entries : List DirEntry) :
    bindScan pat criteria entries =
      entries.find? fun e =>
        globMatch pat e.name && criteria.all (fun kc => matchesCrit e.attr kc) := by
  induction entries with
  | nil => rfl
  | cons e rest ih =>
    rw [bindScan, List.find?_cons]
    by_cases hg : globMatch pat e.name
    · rw [if_pos hg]
      by_cases ha : criteria.all (fun kc => matchesCrit e.attr kc)
      · rw [if_pos ha, hg, ha]
        rfl
      · rw [if_neg ha, hg, Bool.eq_false_iff.mpr ha]
        simpa using ih
    · rw [if_neg hg, Bool.eq_false_iff.mpr hg]
      simpa using ih

/-- Claim C1: constructing a `Device` over a class directory yields
`connected = true` iff some directory entry both glob-matches the name
pattern and satisfies every criterion, where a criterion is substring
containment of the candidate's attribute value (OR over the entries of a
list-valued criterion, AND over distinct attribute criteria); and the entry
bound is the first such entry in directory-listing order. -/

theorem claim_C1_bind_connected (pat : List Char)
    (criteria : List (List Char × CritVal)) (entries : List DirEntry) :
    ((deviceInit pat criteria entries).connected = true ↔
      ∃ e ∈ entries, globMatch pat e.name = true ∧
        ∀ kc ∈ criteria, matchesCrit e.attr kc = true) ∧
    bindScan pat criteria entries =
      entries.find? fun e =>
        globMatch pat e.name && criteria.all (fun kc => matchesCrit e.attr kc) := by
  refine ⟨?_, bindScan_eq_find pat criteria entries⟩
  rw [deviceInit]
  cases hb : bindScan pat criteria entries with
  | some e =>
    refine ⟨fun _ => ?_, fun _ => rfl⟩
    rw [bindScan_eq_find] at hb
    have hmem := List.mem_of_find?_eq_some hb
    have hp := List.find?_some hb
    rw [Bool.and_eq_true, List.all_eq_true] at hp
    exact ⟨e, hmem, hp.1, fun kc hkc => hp.2 kc hkc⟩
  | none =>
    rw [bindScan_eq_find] at hb
    constructor
    · intro h
      exact absurd h (by simp)
    · rintro ⟨e, hmem, hg, ha⟩
      have hfind := List.find?_eq_none.mp hb e hmem
      have hp : (globMatch pat e.name &&
          criteria.all fun kc => matchesCrit e.attr kc) = true := by
        rw [Bool.and_eq_true]
        exact ⟨hg, List.all_eq_true.mpr ha⟩
      exact absurd hp hfind

theorem parseDigits_singleton (c : Char) :
    parseDigits [c] = if c.isDigit = true then some (digitVal c) else none := by
  rw [parseDigits]
  by_cases hd : c.isDigit = true
  · rw [if_pos ⟨by simp, by simp [hd]⟩, if_pos hd]
    simp
  · rw [if_neg, if_neg hd]
    rintro ⟨-, hall⟩
    simp only [List.all_cons, List.all_nil, Bool.and_true] at hall
    exact hd hall

theorem deviceIndexOf_last_digit (name : List Char) :
    deviceIndexOf name =
      match name.getLast? with
      | some c => if c.isDigit = true then some (digitVal c) else none
      | none => none := by
  rcases List.eq_nil_or_concat name with rfl | ⟨l, c, rfl⟩
  · rfl
  · simp only [List.concat_eq_append]
    rw [List.getLast?_concat]
    show deviceIndexOf (l ++ [c]) =
      if c.isDigit = true then some (digitVal c) else none
    rw [deviceIndexOf]
    have hlen : (l ++ [c]).length = l.length + 1 := by simp
    rw [hlen, List.range_succ, List.reverse_append]
    simp only [List.reverse_singleton, List.singleton_append]
    rw [List.findSome?_cons]
    rw [List.drop_left, parseDigits_singleton]
    by_cases hd : c.isDigit = true
    · rw [if_pos hd]
    · rw [if_neg hd]
      show (List.range l.length).reverse.findSome?
        (fun k => parseDigits ((l ++ [c]).drop k)) = none
      apply List.findSome?_eq_none_iff.mpr
      intro k hk
      have hklt : k < l.length := List.mem_range.mp (List.mem_reverse.mp hk)
      rw [List.drop_append_of_le_length (by omega)]
      rw [parseDigits, if_neg]
      rintro ⟨-, hall⟩
      have hcmem : c ∈ l.drop k ++ [c] := by simp
      exact hd (List.all_eq_true.mp hall c hcmem)

/-- Claim C9 counterexample: binding the entry named `motor12` sets
`device_index` to `2`, the value of the final digit only — the greedy `.*`
of `^.*(?P<idx>\d+)$` leaves a single digit for the capture — not to `12`,
the value of the entire trailing digit run. -/

theorem claim_C9_counterexample :
    (deviceInit ("*".toList) []
        [⟨"motor12".toList, fun _ => []⟩]).device_index = some 2 ∧
    ¬ (deviceInit ("*".toList) []
        [⟨"motor12".toList, fun _ => []⟩]).device_index = some 12 := by
  constructor
  · decide
  · decide

/-- Claim C9 as amended: when bind succeeds on a directory entry,
`device_index` is the integer value of the final character of the matched
entry name when that character is a digit (the regex `^.*(?P<idx>\d+)$` is
greedy, so the capture is exactly one digit), and none when the name does
not end in a digit. -/

theorem claim_C9_trailing_digit (pat : List Char)
    (criteria : List (List Char × CritVal)) (entries : List DirEntry)
    (e : DirEntry) (hbind : bindScan pat criteria entries = some e) :
    (deviceInit pat criteria entries).device_index =
      match e.name.getLast? with
      | some c => if c.isDigit = true then some (digitVal c) else none
      | none => none := by
  rw [deviceInit, hbind]
  exact deviceIndexOf_last_digit e.name

/-- Witness for C9: binding `motor3` gives `device_index = 3`. -/

theorem claim_C9_trailing_digit_witness :
    bindScan ("*".toList) [] [⟨"motor3".toList, fun _ => []⟩] =
      some ⟨"motor3".toList, fun _ => []⟩ ∧
    (deviceInit ("*".toList) []
        [⟨"motor3".toList, fun _ => []⟩]).device_index = some 3 :=
  ⟨rfl, (claim_C9_trailing_digit ("*".toList) []
    [⟨"motor3".toList, fun _ => []⟩]
    ⟨"motor3".toList, fun _ => []⟩ rfl).trans (by decide)⟩

/-- Witness for C5: a readable and writable attribute file round-trips
`-37` through `write_int`/`read_int`. -/

theorem claim_C5_witness :
    ((true : Bool) = true) ∧
    (({ r_ok := true, w_ok := true, value := "42".toList } : AttrFile).set_attr_int
        (-37)).bind AttrFile.get_attr_int = .ok (-37) :=
  ⟨rfl, claim_C5_attr_int_round_trip
    { r_ok := true, w_ok := true, value := "42".toList } (-37) rfl rfl⟩

theorem symmDiffL_self (l : List String) : symmDiffL l l = [] := by
  unfold symmDiffL
  have h : l.filter (fun b => !(pyIn b l)) = [] := by
    apply List.filter_eq_nil_iff.mpr
    intro b hb
    simp [pyIn, hb]
  rw [h]
  rfl

theorem runHandlers_benign (handlers : HandlerTable) (pressed : List String)
    (hBenign : ∀ b h, handlers b = some h →
      ∀ flag, h flag ≠ HandlerOutcome.otherError) :
    ∀ l : List String,
      (runHandlers handlers pressed l).2 = false ∧
      (runHandlers handlers pressed l).1 =
        l.filterMap fun b => (handlers b).map fun _ => (b, pyIn b pressed) := by
  intro l
  induction l with
  | nil => exact ⟨rfl, rfl⟩
  | cons b rest ih =>
    rw [runHandlers, List.filterMap_cons]
    cases hb : handlers b with
    | none => simpa using ih
    | some h =>
      dsimp only
      cases hf : h (pyIn b pressed) with
      | otherError => exact absurd hf (hBenign b h hb (pyIn b pressed))
      | ok =>
        simp only [Option.map_some']
        exact ⟨ih.1, by rw [ih.2]⟩
      | attrError =>
        simp only [Option.map_some']
        exact ⟨ih.1, by rw [ih.2]⟩

theorem symmDiffL_nodup (new old : List String)
    (h₁ : new.Nodup) (h₂ : old.Nodup) : (symmDiffL new old).Nodup := by
  unfold symmDiffL
  apply List.Nodup.append (h₁.filter _) (h₂.filter _)
  intro b hb₁ hb₂
  have hmem₁ := List.of_mem_filter hb₁
  have hmem₂ := List.mem_of_mem_filter hb₂
  simp only [pyIn, Bool.not_eq_eq_eq_not, Bool.not_true, decide_eq_false_iff_not]
    at hmem₁
  exact hmem₁ hmem₂

/-- Claim C6: `process()` computes the symmetric difference between the new
and old pressed sets, invokes the per-source handler (with the new pressed
flag) exactly once for each source of the difference that has one (a
missing handler is a no-op), invokes the aggregate change handler exactly
once with the `(source, now_pressed)` pairs iff the difference is
non-empty, and stores the new state; in particular a second `process()`
with unchanged state yields an empty diff and invokes no callbacks. -/

theorem claim_C6_process_diff (handlers : HandlerTable)
    (old pressed : List String) (h₁ : old.Nodup) (h₂ : pressed.Nodup)
    (hBenign : ∀ b h, handlers b = some h →
      ∀ flag, h flag ≠ HandlerOutcome.otherError) :
    (process handlers true old pressed).newState = pressed ∧
    (symmDiffL pressed old).Nodup ∧
    (process handlers true old pressed).calls =
      (symmDiffL pressed old).filterMap
        (fun b => (handlers b).map fun _ => (b, pyIn b pressed)) ∧
    (process handlers true old pressed).changeCall =
      (if symmDiffL pressed old = [] then none
       else some ((symmDiffL pressed old).map fun b => (b, pyIn b pressed))) ∧
    (process handlers true pressed pressed).calls = [] ∧
    (process handlers true pressed pressed).changeCall = none := by
  have hrb := runHandlers_benign handlers pressed hBenign (symmDiffL pressed old)
  refine ⟨rfl, symmDiffL_nodup pressed old h₂ h₁, hrb.2, ?_, ?_, ?_⟩
  · show (if (runHandlers handlers pressed (symmDiffL pressed old)).2 then none
      else if (symmDiffL pressed old).isEmpty = false ∧ true = true then
        some ((symmDiffL pressed old).map fun b => (b, pyIn b pressed))
      else none) = _
    rw [hrb.1]
    simp only [Bool.false_eq_true, if_false]
    by_cases hd : symmDiffL pressed old = []
    · rw [if_pos hd, if_neg]
      rintro ⟨hne, -⟩
      rw [hd] at hne
      exact absurd hne (by simp)
    · rw [if_neg hd, if_pos]
      exact ⟨by simp [List.isEmpty_iff, hd], by trivial⟩
  · show (runHandlers handlers pressed (symmDiffL pressed pressed)).1 = []
    rw [symmDiffL_self]
    rfl
  · show (if (runHandlers handlers pressed (symmDiffL pressed pressed)).2 then none
      else if (symmDiffL pressed pressed).isEmpty = false ∧ true = true then
        some ((symmDiffL pressed pressed).map fun b => (b, pyIn b pressed))
      else none) = none
    rw [symmDiffL_self]
    rfl

/-- Witness for C6: with a handler on `up` only, a transition from no
pressed buttons to `up` pressed invokes the `up` handler once with `true`
and the aggregate handler with `[(up, true)]`; a repeated `process()` with
unchanged state invokes nothing. -/

theorem claim_C6_witness :
    (process (fun x => if x = "up" then some (fun _ => HandlerOutcome.ok)
        else none) true [] ["up"]).calls = [("up", true)] ∧
    (process (fun x => if x = "up" then some (fun _ => HandlerOutcome.ok)
        else none) true [] ["up"]).changeCall = some [("up", true)] ∧
    (process (fun x => if x = "up" then some (fun _ => HandlerOutcome.ok)
        else none) true ["up"] ["up"]).calls = [] ∧
    (process (fun x => if x = "up" then some (fun _ => HandlerOutcome.ok)
        else none) true ["up"] ["up"]).changeCall = none := by
  have hBenign : ∀ (b : String) (h : Bool → HandlerOutcome),
      (fun x => if x = "up" then
        some (fun _ => HandlerOutcome.ok) else none) b = some h →
      ∀ flag, h flag ≠ HandlerOutcome.otherError := by
    intro b h hb flag
    dsimp only at hb
    by_cases hx : b = "up"
    · rw [if_pos hx] at hb
      rw [← Option.some.inj hb]
      intro hcon
      cases hcon
    · rw [if_neg hx] at hb
      cases hb
  have h := claim_C6_process_diff
    (fun x => if x = "up" then some (fun _ => HandlerOutcome.ok) else none)
    [] ["up"] (by decide) (by simp) hBenign
  refine ⟨h.2.2.1.trans (by decide), h.2.2.2.1.trans (by decide),
    h.2.2.2.2.1, h.2.2.2.2.2⟩

theorem runHandlers_erase (handlers : HandlerTable) (pressed : List String)
    (b : String) (h : Bool → HandlerOutcome) (hb : handlers b = some h)
    (hfail : ∀ flag, h flag = HandlerOutcome.attrError) :
    ∀ l : List String,
      (runHandlers handlers pressed l).2 =
        (runHandlers (dropHandler handlers b) pressed l).2 ∧
      (runHandlers handlers pressed l).1.filter (fun cb => cb.1 != b) =
        (runHandlers (dropHandler handlers b) pressed l).1 := by
  intro l
  induction l with
  | nil => exact ⟨rfl, rfl⟩
  | cons x rest ih =>
    rw [runHandlers, runHandlers]
    by_cases hx : x = b
    · subst hx
      rw [hb]
      rw [show dropHandler handlers x x = none by
        unfold dropHandler; rw [if_pos rfl]]
      dsimp only
      rw [hfail (pyIn x pressed)]
      refine ⟨ih.1, ?_⟩
      rw [List.filter_cons]
      have hxb : (x != x) = false := by simp
      rw [hxb]
      simpa using ih.2
    · rw [show dropHandler handlers b x = handlers x by
        unfold dropHandler; rw [if_neg hx]]
      cases hcx : handlers x with
      | none => exact ih
      | some hx2 =>
        dsimp only
        cases hf : hx2 (pyIn x pressed) with
        | otherError =>
          refine ⟨rfl, ?_⟩
          rw [List.filter_cons]
          have hxb : (x != b) = true := by
            simp only [bne_iff_ne, ne_eq]
            exact hx
          rw [hxb]
          rfl
        | ok =>
          refine ⟨ih.1, ?_⟩
          rw [List.filter_cons]
          have hxb : (x != b) = true := by
            simp only [bne_iff_ne, ne_eq]
            exact hx
          rw [hxb]
          simpa using ih.2
        | attrError =>
          refine ⟨ih.1, ?_⟩
          rw [List.filter_cons]
          have hxb : (x != b) = true := by
            simp only [bne_iff_ne, ne_eq]
            exact hx
          rw [hxb]
          simpa using ih.2

/-- Claim C10: a per-source handler that raises `AttributeError` while
invoked by `process()` is silently swallowed by the `except AttributeError`
clause: the loop continues with the remaining sources, the stored state,
escape behaviour and aggregate change invocation are exactly those of a run
where that handler is absent, so a failing handler is observably
indistinguishable from a missing one. -/

theorem claim_C10_attr_error_swallowed (handlers : HandlerTable)
    (hasOnChange : Bool) (old pressed : List String) (b : String)
    (h : Bool → HandlerOutcome) (hb : handlers b = some h)
    (hfail : ∀ flag, h flag = HandlerOutcome.attrError) :
    (process handlers hasOnChange old pressed).newState =
      (process (dropHandler handlers b) hasOnChange old pressed).newState ∧
    (process handlers hasOnChange old pressed).escaped =
      (process (dropHandler handlers b) hasOnChange old pressed).escaped ∧
    (process handlers hasOnChange old pressed).changeCall =
      (process (dropHandler handlers b) hasOnChange old pressed).changeCall ∧
    (process handlers hasOnChange old pressed).calls.filter
        (fun cb => cb.1 != b) =
      (process (dropHandler handlers b) hasOnChange old pressed).calls := by
  obtain ⟨he, hc⟩ :=
    runHandlers_erase handlers pressed b h hb hfail (symmDiffL pressed old)
  refine ⟨rfl, he, ?_, hc⟩
  show (if (runHandlers handlers pressed (symmDiffL pressed old)).2 then none
      else if (symmDiffL pressed old).isEmpty = false ∧ hasOnChange = true then
        some ((symmDiffL pressed old).map fun b => (b, pyIn b pressed))
      else none) = _
  rw [he]
  rfl

/-- Witness for C10: a handler on `up` that raises `AttributeError` leaves
the same stored state, escape flag, aggregate invocation and remaining
calls as no handler at all. -/

theorem claim_C10_witness :
    (process (fun x => if x = "up" then
        some (fun _ => HandlerOutcome.attrError) else none) true []
        ["up"]).newState =
      (process (dropHandler (fun x => if x = "up" then
        some (fun _ => HandlerOutcome.attrError) else none) "up") true []
        ["up"]).newState ∧
    (process (fun x => if x = "up" then
        some (fun _ => HandlerOutcome.attrError) else none) true []
        ["up"]).escaped =
      (process (dropHandler (fun x => if x = "up" then
        some (fun _ => HandlerOutcome.attrError) else none) "up") true []
        ["up"]).escaped ∧
    (process (fun x => if x = "up" then
        some (fun _ => HandlerOutcome.attrError) else none) true []
        ["up"]).changeCall =
      (process (dropHandler (fun x => if x = "up" then
        some (fun _ => HandlerOutcome.attrError) else none) "up") true []
        ["up"]).changeCall ∧
    (process (fun x => if x = "up" then
        some (fun _ => HandlerOutcome.attrError) else none) true []
        ["up"]).calls.filter (fun cb => cb.1 != "up") =
      (process (dropHandler (fun x => if x = "up" then
        some (fun _ => HandlerOutcome.attrError) else none) "up") true []
        ["up"]).calls :=
  claim_C10_attr_error_swallowed
    (fun x => if x = "up" then some (fun _ => HandlerOutcome.attrError)
      else none)
    true [] ["up"] "up" (fun _ => HandlerOutcome.attrError)
    (by dsimp only; rw [if_pos rfl]) (fun _ => rfl)

/-- Claim C7: on any polling trace whose first poll reports the `holding`
flag for both motors, the monitor (with all callbacks supplied) invokes
`on_complete` exactly once, never invokes `on_stalled`, and terminates in
the completed state; moreover on any single-poll trace the stall check
cannot fire, since it needs a previous-position snapshot. -/

theorem claim_C7_holding_first_poll (m1 m2 : MotorPoll)
    (rest : List (MotorPoll × MotorPoll))
    (h1 : holdingIn m1.st = true) (h2 : holdingIn m2.st = true) :
    monitorRun true true true ((m1, m2) :: rest) =
      { outcome := .completed
        startCalls := 1
        completeCalls := 1
        stalledCalls := 0 } ∧
    ∀ q : MotorPoll × MotorPoll,
      (monitorRun true true true [q]).outcome ≠ MonOutcome.stalled := by
  constructor
  · rw [monitorRun, monitorLoop]
    rw [h1, h2]
    rfl
  · intro q
    rw [monitorRun, monitorLoop]
    by_cases hq : (holdingIn q.1.st && holdingIn q.2.st) = true
    · rw [hq]
      intro hcon
      cases hcon
    · rw [Bool.eq_false_iff.mpr hq]
      show (monitorLoop true true (some (q.1.pos, q.2.pos)) []).1 ≠ _
      rw [monitorLoop]
      intro hcon
      cases hcon

/-- Witness for C7: both motors holding at position 0 on the first poll. -/

theorem claim_C7_witness :
    holdingIn ["holding"] = true ∧
    monitorRun true true true [(⟨["holding"], 0⟩, ⟨["holding"], 0⟩)] =
      { outcome := .completed
        startCalls := 1
        completeCalls := 1
        stalledCalls := 0 } :=
  ⟨by decide,
    (claim_C7_holding_first_poll ⟨["holding"], 0⟩ ⟨["holding"], 0⟩ []
      (by decide) (by decide)).1⟩

theorem pyRound_eq (x : ℚ) (n : Int) (h0 : 0 ≤ x)
    (h1 : (n : ℚ) ≤ x + 1 / 2) (h2 : x + 1 / 2 < n + 1) : pyRound x = n := by
  rw [pyRound, if_pos h0]
  rw [Int.floor_eq_iff]
  exact ⟨h1, h2⟩

theorem pyTrunc_eq_of_nonneg (x : ℚ) (n : Int) (h0 : 0 ≤ x)
    (h1 : (n : ℚ) ≤ x) (h2 : x < n + 1) : pyTrunc x = n := by
  rw [pyTrunc, if_pos h0]
  rw [Int.floor_eq_iff]
  exact ⟨h1, h2⟩

theorem pyRound_zero : pyRound 0 = 0 := by
  apply pyRound_eq <;> norm_num

/-- Claim C2 counterexample: `travel(distance=0)` does not return the
degenerate null monitor and does issue actuator commands: the act list is
non-empty, contains the synchronized `run-to-rel-pos` start on both
motors, and a real started `MotionMonitor` is returned (there is no
zero-distance special case in `travel`, and `NullMotionMonitor` is never
instantiated by any code path). -/

theorem claim_C2_counterexample :
    (refPilot.travel 0 none).1 ≠ [] ∧
    (refPilot.travel 0 none).2 = MonitorKind.real ∧
    (refPilot.travel 0 none).2 ≠ MonitorKind.null ∧
    Act.setStr Side.left ("command") ("run-to-rel-pos") ∈
      (refPilot.travel 0 none).1 ∧
    Act.setStr Side.right ("command") ("run-to-rel-pos") ∈
      (refPilot.travel 0 none).1 := by
  refine ⟨?_, rfl, ?_, ?_, ?_⟩
  · rw [Pilot.travel]
    simp
  · intro hcon
    cases hcon
  · rw [Pilot.travel]
    simp [motors_sync_start]
  · rw [Pilot.travel]
    simp [motors_sync_start]

/-- Claim C2 as amended: `travel(distance=0)` follows the same path as any
other distance: it writes a zero relative position target, enables speed
regulation and writes the speed setpoint on both motors, issues the
synchronized `run-to-rel-pos` start, and returns a started real
`MotionMonitor`; the `NullMotionMonitor` (whose `running` and `stalled`
are constantly false) exists in the source but is never used. -/

theorem claim_C2_travel_zero (p : Pilot) (speed : Option ℚ) :
    p.travel 0 speed =
      ([Act.setInt Side.left ("position_sp") 0,
        Act.setStr Side.left ("speed_regulation") ("on"),
        Act.setInt Side.left ("speed_sp")
          (p.pulses_per_sec_linear (orDefault speed p.travel_speed)),
        Act.setInt Side.right ("position_sp") 0,
        Act.setStr Side.right ("speed_regulation") ("on"),
        Act.setInt Side.right ("speed_sp")
          (p.pulses_per_sec_linear (orDefault speed p.travel_speed))] ++
        motors_sync_start ("run-to-rel-pos"),
       MonitorKind.real) ∧
    nullMonitorRunning = false := by
  refine ⟨?_, rfl⟩
  rw [Pilot.travel]
  rw [show (0 : ℚ) / p.dist_per_pulse = 0 from zero_div _, pyRound_zero]

/-- Claim C3: `drive(speed)` writes the speed-regulation flag and the
speed setpoint `round(speed / dist_per_pulse)` to both motors, but then
raises `TypeError`: the call `self._motors_sync_start()` omits the
required `command` argument of `_motors_sync_start(self, command)`, so no
run command of any kind is ever issued to either motor and the call
fails. -/

theorem claim_C3_drive_raises (p : Pilot) (speed : Option ℚ) :
    (p.drive speed).2 = Except.error PyErr.typeError ∧
    (p.drive speed).1 =
      [Act.setStr Side.left ("speed_regulation") ("on"),
       Act.setInt Side.left ("speed_sp")
         (p.pulses_per_sec_linear (orDefault speed p.travel_speed)),
       Act.setStr Side.right ("speed_regulation") ("on"),
       Act.setInt Side.right ("speed_sp")
         (p.pulses_per_sec_linear (orDefault speed p.travel_speed))] ∧
    ∀ (m : Side) (s : String),
      Act.setStr m ("command") s ∉ (p.drive speed).1 := by
  refine ⟨rfl, rfl, ?_⟩
  intro m s hmem
  rw [Pilot.drive] at hmem
  simp only [List.mem_cons, List.not_mem_nil, or_false] at hmem
  rcases hmem with h | h | h | h
  · injection h with e1 e2 e3
    exact absurd e2 (by decide)
  · cases h
  · injection h with e1 e2 e3
    exact absurd e2 (by decide)
  · cases h

/-- Claim C4: at `steer(turn_rate=50, speed=10)` on the reference pilot the
inner (left) wheel's written speed setpoint is
`round(10 * (100 - 50) / dist_per_pulse) = 1326`, i.e. the code multiplies
the speed by `ratio = 100 - abs(turn_rate)` without the division by 100
that its own docstring (ratio "as a percent") and the claim require; the
claimed setpoint `round(10 * ((100 - 50) / 100) / dist_per_pulse)` is 13. -/

theorem claim_C4_steer_missing_percent :
    (refPilot.steer 50 10).1 =
      [Act.setStr Side.left ("speed_regulation") ("on"),
       Act.setInt Side.left ("speed_sp") 1326,
       Act.setStr Side.right ("speed_regulation") ("on"),
       Act.setInt Side.right ("speed_sp") 27] ++
      motors_sync_start ("run-forever") ∧
    (refPilot.steer 50 10).2 = .ok () ∧
    refPilot.pulses_per_sec_linear (10 * ((100 - |(50 : ℚ)|) / 100)) = 13 ∧
    (1326 : Int) ≠ 13 := by
  have hclamp : min (max (50 : ℚ) (-200)) 200 = 50 := by norm_num
  have h1326 : refPilot.pulses_per_sec_linear (10 * (100 - |(50 : ℚ)|)) = 1326 := by
    rw [show (10 : ℚ) * (100 - |(50 : ℚ)|) = 500 by norm_num]
    rw [Pilot.pulses_per_sec_linear]
    apply pyRound_eq <;> norm_num [refPilot, Pilot.dist_per_pulse]
  have h27 : refPilot.pulses_per_sec_linear 10 = 27 := by
    rw [Pilot.pulses_per_sec_linear]
    apply pyRound_eq <;> norm_num [refPilot, Pilot.dist_per_pulse]
  refine ⟨?_, ?_, ?_, by decide⟩
  · rw [Pilot.steer, if_neg (by norm_num : ¬ (50 : ℚ) = 0), hclamp,
      if_neg (by norm_num : ¬ |(50 : ℚ)| = 200),
      if_pos (by norm_num : (50 : ℚ) > 0),
      if_pos (by norm_num : (50 : ℚ) > 0), h1326, h27]
  · rw [Pilot.steer, if_neg (by norm_num : ¬ (50 : ℚ) = 0), hclamp,
      if_neg (by norm_num : ¬ |(50 : ℚ)| = 200)]
  · rw [show (10 : ℚ) * ((100 - |(50 : ℚ)|) / 100) = 5 by norm_num]
    rw [Pilot.pulses_per_sec_linear]
    apply pyRound_eq <;> norm_num [refPilot, Pilot.dist_per_pulse]

/-- Claim C8 counterexample: for `arc(radius=103, angle=90)` on the
reference pilot the right motor's position setpoint is written as the
truncation 720 of `(103 + 140/2) * radians(90) / dist_per_pulse ≈ 720.83`
(the value reaches `set_attr_int` unrounded and `int()` truncates), not as
its rounded value 721 required by the claim. The value is independent of
the rational stand-in for `math.pi`, which cancels exactly. -/

theorem claim_C8_counterexample :
    pyTrunc ((103 + 1 * (refPilot.track_width / 2)) *
      (90 * refPilot.pi / 180) / refPilot.dist_per_pulse) = 720 ∧
    pyRound ((103 + 1 * (refPilot.track_width / 2)) *
      (90 * refPilot.pi / 180) / refPilot.dist_per_pulse) = 721 ∧
    Act.setInt Side.right ("position_sp") 720 ∈ (refPilot.arc 103 90 none).1 ∧
    Act.setInt Side.right ("position_sp") 721 ∉ (refPilot.arc 103 90 none).1 := by
  have htr : pyTrunc ((103 + 1 * (refPilot.track_width / 2)) *
      (90 * refPilot.pi / 180) / refPilot.dist_per_pulse) = 720 := by
    apply pyTrunc_eq_of_nonneg <;>
      norm_num [refPilot, Pilot.dist_per_pulse]
  have hro : pyRound ((103 + 1 * (refPilot.track_width / 2)) *
      (90 * refPilot.pi / 180) / refPilot.dist_per_pulse) = 721 := by
    apply pyRound_eq <;>
      norm_num [refPilot, Pilot.dist_per_pulse]
  refine ⟨htr, hro, ?_, ?_⟩
  · rw [Pilot.arc, if_neg (by norm_num : ¬ (103 : ℚ) = 0), htr]
    simp
  · rw [Pilot.arc, if_neg (by norm_num : ¬ (103 : ℚ) = 0), htr]
    intro hmem
    simp only [List.cons_append, List.nil_append, motors_sync_start,
      List.mem_cons, List.not_mem_nil, or_false] at hmem
    rcases hmem with h | h | h | h | h | h | h | h
    · cases h
    · injection h with e1 e2 e3
      exact absurd e1 (by decide)
    · injection h with e1 e2 e3
      exact absurd e1 (by decide)
    · cases h
    · injection h with e1 e2 e3
      exact absurd e2 (by decide)
    · injection h with e1 e2 e3
      exact absurd e3 (by decide)
    · cases h
    · cases h

/-- Claim C8 as amended: `travel` and `rotate` convert physical units to
pulses with `round()` (nearest integer, halves away from zero), but `arc`
with non-zero radius writes each motor's position setpoint as
`(radius ± track_width/2) * radians(angle) / dist_per_pulse` with no
rounding, so the `int()` conversion inside `set_attr_int` truncates it
toward zero. -/

theorem claim_C8_pulse_conversion (p : Pilot) (radius angle : ℚ)
    (speed : Option ℚ) (distance : ℚ) (spd : Option ℚ) (hr : radius ≠ 0) :
    Act.setInt Side.left ("position_sp")
        (pyTrunc ((radius + (-1) * (p.track_width / 2)) *
          (angle * p.pi / 180) / p.dist_per_pulse)) ∈
      (p.arc radius angle speed).1 ∧
    Act.setInt Side.right ("position_sp")
        (pyTrunc ((radius + 1 * (p.track_width / 2)) *
          (angle * p.pi / 180) / p.dist_per_pulse)) ∈
      (p.arc radius angle speed).1 ∧
    Act.setInt Side.left ("position_sp")
        (pyRound (distance / p.dist_per_pulse)) ∈ (p.travel distance spd).1 ∧
    Act.setInt Side.right ("position_sp")
        (pyRound (angle / p.rotation_per_pulse)) ∈ (p.rotate angle spd).1 := by
  rw [Pilot.arc, if_neg hr]
  refine ⟨by simp, by simp, ?_, ?_⟩
  · rw [Pilot.travel]
    simp
  · rw [Pilot.rotate]
    simp

/-- Witness for C8 at the reference pilot, radius 103, angle 90. -/

theorem claim_C8_witness :
    (103 : ℚ) ≠ 0 ∧
    (Act.setInt Side.left ("position_sp")
        (pyTrunc ((103 + (-1) * (refPilot.track_width / 2)) *
          (90 * refPilot.pi / 180) / refPilot.dist_per_pulse)) ∈
      (refPilot.arc 103 90 none).1 ∧
    Act.setInt Side.right ("position_sp")
        (pyTrunc ((103 + 1 * (refPilot.track_width / 2)) *
          (90 * refPilot.pi / 180) / refPilot.dist_per_pulse)) ∈
      (refPilot.arc 103 90 none).1 ∧
    Act.setInt Side.left ("position_sp")
        (pyRound (200 / refPilot.dist_per_pulse)) ∈
      (refPilot.travel 200 none).1 ∧
    Act.setInt Side.right ("position_sp")
        (pyRound (90 / refPilot.rotation_per_pulse)) ∈
      (refPilot.rotate 90 none).1) :=
  ⟨by norm_num,
    claim_C8_pulse_conversion refPilot 103 90 none 200 none (by norm_num)⟩
